import Mathlib

/-!
Shallow embedding of the client-side utilities of the `crm` repository
(`src/utils.js` and `src/js/utils.js`).

Modelling conventions:
* JS form-field values are modelled as `Option String` (`none` = `undefined`,
  `some s` = a string value); this is the universe produced by reading form
  inputs, which is what both `validateForm` functions consume.
* JS exceptions (`TypeError` from calling a non-function, `throw new Error`)
  are modelled with `Except`: `.error` is a thrown exception.  `console.error`
  logging is modelled by a `Nat` count of emitted log lines.
* Machine integers do not occur; all numbers in scope (string lengths, HTTP
  status codes, length bounds) are small naturals, modelled as `Nat`.
* The ambient document is modelled as a flat list of element nodes in tree
  order plus the `document.body.style.overflow` value.  Helpers that mutate
  the document return the new document paired with a `Bool` that is `true`
  when the helper threw (`null.classList...`-style `TypeError`).
-/

set_option autoImplicit false

/-! ## JS string primitives shared by both files -/

/-- ASCII part of the JS `\s` class (sufficient for every string in scope). -/
def jsWhitespace (c : Char) : Bool :=
  c == ' ' || c == '\t' || c == '\n' || c == '\r' || c == '\x0b' || c == '\x0c'

/-- JS `String.prototype.trim`: drop leading and trailing whitespace. -/
def jsTrim (s : String) : String :=
  String.mk (((s.toList.dropWhile (fun c => jsWhitespace c)).reverse.dropWhile
    (fun c => jsWhitespace c)).reverse)

/-- JS `String(value)` coercion used by `RegExp.test` on an `Option String`. -/
def jsStringOfOpt : Option String → String
  | none => "undefined"
  | some s => s

/-- Whole-string match of `/^[^\s@]+@[^\s@]+\.[^\s@]+$/` (the `email` regex of
both files): a non-empty `@`/whitespace-free local part, one `@`, then a
non-empty `@`/whitespace-free domain containing a `.` strictly inside it. -/
def emailRegexTest (s : String) : Bool :=
  let cs := s.toList
  let before := cs.takeWhile (fun c => c != '@')
  let rest := cs.dropWhile (fun c => c != '@')
  match rest with
  | [] => false
  | _ :: after =>
    !before.isEmpty && before.all (fun c => !jsWhitespace c) &&
    after.all (fun c => !jsWhitespace c && c != '@') &&
    ((after.drop 1).dropLast.contains '.')

/-- `[1-9][\d]{0,15}` applied to the whole remaining character list. -/
def phoneDigits : List Char → Bool
  | [] => false
  | d :: ds =>
    (decide ('1' ≤ d) && decide (d ≤ '9')) && ds.all (fun c => c.isDigit) &&
      decide (ds.length ≤ 15)

/-- Whole-string match of `/^[+]?[1-9][\d]{0,15}$/` (the `phone` regex of both
files). -/
def phoneRegexTest (s : String) : Bool :=
  match s.toList with
  | '+' :: rest => phoneDigits rest
  | cs => phoneDigits cs

/-- Declarative language of the phone regex, used to state (rather than merely
restate) what `phoneRegexTest` accepts: an optional leading `+`, a non-zero
leading digit, and at most 15 further digits. -/
def PhoneLang (cs : List Char) : Prop :=
  ∃ pre d ds, (pre = [] ∨ pre = ['+']) ∧ cs = pre ++ d :: ds ∧
    '1' ≤ d ∧ d ≤ '9' ∧ (∀ c ∈ ds, c.isDigit = true) ∧ ds.length ≤ 15

/-! ## JSON values (the decoded bodies the transport layer hands back) -/

/-- JSON values, as decoded by the `response.json()` accessor. -/
inductive Json
  | jnull
  | jbool (b : Bool)
  | jnum (n : Int)
  | jstr (s : String)
  | jarr (elts : List Json)
  | jobj (fields : List (String × Json))

mutual

/-- `JSON.stringify` on the modelled JSON values (string escaping elided:
no string in scope needs it). -/
def Json.stringify : Json → String
  | .jnull => "null"
  | .jbool true => "true"
  | .jbool false => "false"
  | .jnum n => toString n
  | .jstr s => "\"" ++ s ++ "\""
  | .jarr xs => "[" ++ Json.stringifyArr xs ++ "]"
  | .jobj fs => "\x7b" ++ Json.stringifyObj fs ++ "\x7d"

def Json.stringifyArr : List Json → String
  | [] => ""
  | [x] => Json.stringify x
  | x :: xs => Json.stringify x ++ "," ++ Json.stringifyArr xs

def Json.stringifyObj : List (String × Json) → String
  | [] => ""
  | [(k, v)] => "\"" ++ k ++ "\":" ++ Json.stringify v
  | (k, v) :: fs => "\"" ++ k ++ "\":" ++ Json.stringify v ++ "," ++ Json.stringifyObj fs

end

/-! ## The fetch-style transport boundary -/

/-- A header bag: header name to value (`none` = header absent). -/
abbrev HeaderMap := String → Option String

/-- The `Content-Type: application/json` default header object. -/
def defaultHeaders : HeaderMap :=
  fun k => if k = "Content-Type" then some "application/json" else none

/-- JS object-spread merge `\x7b ...base, ...extra \x7d`: keys of `extra` win. -/
def mergeHeaders (base extra : HeaderMap) : HeaderMap :=
  fun k =>
    match extra k with
    | some v => some v
    | none => base k

/-- A transport response: success flag, numeric status, decoded JSON body
(the three things the fetch-style boundary exposes). -/
structure Response where
  ok : Bool
  status : Nat
  json : Json

/-! ## src/utils.js -/

namespace Utils

/-- `validators.required` (src/utils.js:69-71):
`value && value.toString().trim() !== ""`. -/
def validators.required (value : Option String) : Bool :=
  match value with
  | none => false
  | some s => (s != "") && (jsTrim s != "")

/-- `validators.email` (src/utils.js:73-76): `emailRegex.test(value)`; `test`
coerces `undefined` to the string `"undefined"`. -/
def validators.email (value : Option String) : Bool :=
  emailRegexTest (jsStringOfOpt value)

/-- The character class `[\s\-$$$$]` of src/utils.js:79-80: whitespace, `-`,
and the literal `$`s written as `$$$$`. -/
def phoneStrip (c : Char) : Bool :=
  jsWhitespace c || c == '-' || c == '$'

/-- `validators.phone` (src/utils.js:78-81) on a string value:
`phoneRegex.test(value.replace(/[\s\-$$$$]/g, ""))`. -/
def validators.phone (s : String) : Bool :=
  phoneRegexTest (String.mk (s.toList.filter (fun c => !phoneStrip c)))

/-- `validators.minLength` (src/utils.js:83-85): `(min) => (value) =>
value && value.length >= min`; a `min` of `none` models an `undefined`
parameter, for which the `>=` comparison is false. -/
def validators.minLength (min : Option Nat) (value : Option String) : Bool :=
  match value with
  | none => false
  | some s =>
    (s != "") &&
      (match min with
       | none => false
       | some m => decide (s.length ≥ m))

/-- `validators.maxLength` (src/utils.js:87-89): `(max) => (value) =>
!value || value.length <= max`. -/
def validators.maxLength (max : Option Nat) (value : Option String) : Bool :=
  match value with
  | none => true
  | some s =>
    (s == "") ||
      (match max with
       | none => false
       | some m => decide (s.length ≤ m))

/-- The names present in the `validators` registry object. -/
inductive RegFn
  | required
  | email
  | phone
  | minLength
  | maxLength

/-- Property lookup `validators[name]`: `none` models `undefined`. -/
def lookupValidator (n : String) : Option RegFn :=
  if n = "required" then some .required
  else if n = "email" then some .email
  else if n = "phone" then some .phone
  else if n = "minLength" then some .minLength
  else if n = "maxLength" then some .maxLength
  else none

/-- `validators.phone(value)` as called with a possibly-undefined value:
`undefined.replace` throws a `TypeError`, modelled as `.error`. -/
def callPhone : Option String → Except Unit Bool
  | none => .error ()
  | some s => .ok (validators.phone s)

/-- Truthiness of `validators[rule](value)` in the bare-string branch
(src/utils.js:100-105).  `minLength`/`maxLength` return a closure there,
which is truthy; an unknown name makes the call itself throw. -/
def callTruthy (n : String) (value : Option String) : Except Unit Bool :=
  match lookupValidator n with
  | none => .error ()
  | some .required => .ok (validators.required value)
  | some .email => .ok (validators.email value)
  | some .phone => callPhone value
  | some .minLength => .ok true
  | some .maxLength => .ok true

/-- `validators[validator](param)(value)` in the object branch
(src/utils.js:106-113).  Only the curried validators return a function from
the first call; for `required`/`email`/`phone` the second call (or, for
`phone`, already the first, since its argument lacks `.replace`) throws. -/
def callCurried (n : String) (param : Option Nat) (value : Option String) :
    Except Unit Bool :=
  match lookupValidator n with
  | none => .error ()
  | some .minLength => .ok (validators.minLength param value)
  | some .maxLength => .ok (validators.maxLength param value)
  | some .required => .error ()
  | some .email => .error ()
  | some .phone => .error ()

/-- A rule as dispatched on by `typeof` in src/utils.js:100-113.
`obj` carries the result of `const \x7b validator, message, ...params \x7d =
rule`: the `validator` property (`none` = absent), the `message` property,
and the values of the remaining properties in key-insertion order (numeric
length bounds in this code base), as enumerated by `Object.values(params)`. -/
inductive Rule
  | name (n : String)
  | obj (validator : Option String) (message : Option String) (params : List Nat)
  | fn (f : Option String → Option String)

/-- `true` for the two `typeof` shapes the field loop dispatches on. -/
def isNamedRule : Rule → Bool
  | .fn _ => false
  | _ => true

/-- The generated fallback `` `${field} validation failed` ``. -/
def defaultFieldMsg (field : String) : String :=
  field ++ " validation failed"

/-- `message || defaultFieldMsg field`: an empty custom message is falsy. -/
def objMessage (message : Option String) (field : String) : String :=
  match message with
  | some m => if m = "" then defaultFieldMsg field else m
  | none => defaultFieldMsg field

/-- One iteration of the inner rule loop of `validateForm`
(src/utils.js:99-114): `.ok none` = rule passed (or was skipped because its
`typeof` is `"function"`), `.ok (some msg)` = rule failed and `msg` is
recorded, `.error` = the iteration threw. -/
def evalRule (field : String) (value : Option String) : Rule → Except Unit (Option String)
  | .name n =>
    match callTruthy n value with
    | .error e => .error e
    | .ok b => .ok (if b then none else some (field ++ " is " ++ n))
  | .obj v m params =>
    match v with
    | none => .error ()
    | some vn =>
      match callCurried vn params.head? value with
      | .error e => .error e
      | .ok b => .ok (if b then none else some (objMessage m field))
  | .fn _ => .ok none

/-- The inner `for (const rule of fieldRules)` loop: stop at the first
recorded message (`break`), propagate a thrown exception. -/
def runRules (field : String) (value : Option String) : List Rule → Except Unit (Option String)
  | [] => .ok none
  | r :: rs =>
    match evalRule field value r with
    | .error e => .error e
    | .ok (some msg) => .ok (some msg)
    | .ok none => runRules field value rs

/-- The outer `for (const [field, fieldRules] of Object.entries(rules))` loop,
building the `errors` object in field order. -/
def validateFormAux (formData : String → Option String) :
    List (String × List Rule) → Except Unit (List (String × String))
  | [] => .ok []
  | (field, frs) :: rest =>
    match runRules field (formData field) frs with
    | .error e => .error e
    | .ok none => validateFormAux formData rest
    | .ok (some msg) =>
      match validateFormAux formData rest with
      | .error e => .error e
      | .ok errs => .ok ((field, msg) :: errs)

/-- The `\x7b isValid, errors \x7d` wrapper returned by src/utils.js. -/
structure FormResult where
  isValid : Bool
  errors : List (String × String)
deriving DecidableEq

/-- `validateForm` (src/utils.js:93-121): `isValid` is
`Object.keys(errors).length === 0`. -/
def validateForm (formData : String → Option String)
    (rules : List (String × List Rule)) : Except Unit FormResult :=
  match validateFormAux formData rules with
  | .error e => .error e
  | .ok errs => .ok ⟨errs.isEmpty, errs⟩

/-- A request body before serialization: either already a string or a JS
object (`typeof "object"`). -/
inductive Body
  | str (s : String)
  | obj (j : Json)

/-- The caller-supplied `options` bag of `ApiClient.request`: each field is
`none` when the corresponding own property is absent. -/
structure Options where
  method : Option String
  headers : Option HeaderMap
  body : Option Body

/-- The `config` object handed to `fetch`. -/
structure Config where
  headersMap : HeaderMap
  method : Option String
  body : Option Body

/-- `config.headers` from src/utils.js:11-17:
`\x7b headers: \x7b "Content-Type": ..., ...options.headers \x7d, ...options \x7d`.
When `options` has its own `headers` property, the trailing `...options`
re-copies it, replacing the merged inner object wholesale; only when the
caller passed no `headers` does the inner merge (of the default with
nothing) survive. -/
def mkConfigHeaders (opts : Options) : HeaderMap :=
  match opts.headers with
  | some h => h
  | none => mergeHeaders defaultHeaders (fun _ => none)

/-- src/utils.js:19-21: `if (config.body && typeof config.body === "object")
config.body = JSON.stringify(config.body)`. -/
def mkBody : Option Body → Option Body
  | some (.obj j) => some (.str (Json.stringify j))
  | b => b

/-- The full `config` construction of `ApiClient.request`. -/
def mkConfig (opts : Options) : Config :=
  ⟨mkConfigHeaders opts, opts.method, mkBody opts.body⟩

/-- The transport consumed by the client: `fetch(url, config)`, resolving
with a response or rejecting (`.error`) with a thrown error message. -/
abbrev Transport := String → Config → Except String Response

/-- `ApiClient.request` (src/utils.js:9-35).  Result: the settled value of
the returned promise paired with the number of `console.error` lines
emitted.  A non-ok response throws `` `HTTP error! status: ${status}` ``
inside the `try`; the `catch` logs once and re-throws unchanged. -/
def request (transport : Transport) (baseUrl endpoint : String) (opts : Options) :
    Except String Json × Nat :=
  let url := baseUrl ++ endpoint
  let config := mkConfig opts
  match transport url config with
  | .error e => (.error e, 1)
  | .ok resp =>
    if resp.ok then (.ok resp.json, 0)
    else (.error ("HTTP error! status: " ++ toString resp.status), 1)

/-- `ApiClient.get` (src/utils.js:38-40). -/
def get (transport : Transport) (baseUrl endpoint : String) : Except String Json × Nat :=
  request transport baseUrl endpoint ⟨some "GET", none, none⟩

/-- `ApiClient.post` (src/utils.js:43-48). -/
def post (transport : Transport) (baseUrl endpoint : String) (data : Body) :
    Except String Json × Nat :=
  request transport baseUrl endpoint ⟨some "POST", none, some data⟩

/-- `ApiClient.put` (src/utils.js:51-56). -/
def put (transport : Transport) (baseUrl endpoint : String) (data : Body) :
    Except String Json × Nat :=
  request transport baseUrl endpoint ⟨some "PUT", none, some data⟩

/-- `ApiClient.delete` (src/utils.js:59-61). -/
def delete (transport : Transport) (baseUrl endpoint : String) : Except String Json × Nat :=
  request transport baseUrl endpoint ⟨some "DELETE", none, none⟩

end Utils

/-! ## src/js/utils.js -/

namespace JsUtils

/-- `validators.required` (src/js/utils.js:67-69):
`value && value.trim() !== "" ? null : "This field is required"`. -/
def validators.required (value : Option String) : Option String :=
  match value with
  | none => some "This field is required"
  | some s =>
    if (s != "") && (jsTrim s != "") then none else some "This field is required"

/-- `validators.email` (src/js/utils.js:71-74). -/
def validators.email (value : Option String) : Option String :=
  if emailRegexTest (jsStringOfOpt value) then none
  else some "Please enter a valid email address"

/-- `validators.phone` (src/js/utils.js:76-79) on a string value:
only whitespace is stripped (`value.replace(/\s/g, "")`). -/
def validators.phone (s : String) : Option String :=
  if phoneRegexTest (String.mk (s.toList.filter (fun c => !jsWhitespace c))) then none
  else some "Please enter a valid phone number"

/-- `validators.minLength` (src/js/utils.js:81-83). -/
def validators.minLength (min : Nat) (value : Option String) : Option String :=
  match value with
  | none => some ("Must be at least " ++ toString min ++ " characters")
  | some s =>
    if (s != "") && decide (s.length ≥ min) then none
    else some ("Must be at least " ++ toString min ++ " characters")

/-- A rule in src/js/utils.js is a caller-supplied function from the field
value to an error message (`none`/falsy = pass). -/
abbrev JsRule := Option String → Option String

/-- JS truthiness of a rule result: `null` and `""` are falsy. -/
def truthyMsg : Option String → Bool
  | none => false
  | some m => m != ""

/-- The inner rule loop of src/js/utils.js:93-99: record the first truthy
result and `break`. -/
def runRules (value : Option String) : List JsRule → Option String
  | [] => none
  | r :: rs =>
    let e := r value
    if truthyMsg e then e else runRules value rs

/-- `validateForm` (src/js/utils.js:87-103): returns the raw errors object,
built in field order. -/
def validateForm (formData : String → Option String)
    (rules : List (String × List JsRule)) : List (String × String) :=
  match rules with
  | [] => []
  | (field, frs) :: rest =>
    match runRules (formData field) frs with
    | none => validateForm formData rest
    | some m => (field, m) :: validateForm formData rest

/-- The `options` bag of `APIClient.request` (bodies are pre-stringified by
the callers in this file). -/
structure Options where
  method : Option String
  headers : Option HeaderMap
  body : Option String

/-- The `config` object handed to `fetch`. -/
structure Config where
  headersMap : HeaderMap
  method : Option String
  body : Option String

/-- `config.headers` from src/js/utils.js:11-17 — same shape as in
src/utils.js: a caller-supplied `headers` property replaces the merged
default wholesale via the trailing `...options` spread. -/
def mkConfigHeaders (opts : Options) : HeaderMap :=
  match opts.headers with
  | some h => h
  | none => mergeHeaders defaultHeaders (fun _ => none)

/-- The full `config` construction of `APIClient.request` (no body
re-serialization step in this file). -/
def mkConfig (opts : Options) : Config :=
  ⟨mkConfigHeaders opts, opts.method, opts.body⟩

/-- The transport consumed by `APIClient`. -/
abbrev Transport := String → Config → Except String Response

/-- `APIClient.request` (src/js/utils.js:9-31): identical control flow to
`ApiClient.request`. -/
def request (transport : Transport) (baseURL endpoint : String) (opts : Options) :
    Except String Json × Nat :=
  let url := baseURL ++ endpoint
  let config := mkConfig opts
  match transport url config with
  | .error e => (.error e, 1)
  | .ok resp =>
    if resp.ok then (.ok resp.json, 0)
    else (.error ("HTTP error! status: " ++ toString resp.status), 1)

/-- `APIClient.get` (src/js/utils.js:34-36): `this.request(endpoint)` with
the default empty options. -/
def get (transport : Transport) (baseURL endpoint : String) : Except String Json × Nat :=
  request transport baseURL endpoint ⟨none, none, none⟩

/-- `APIClient.post` (src/js/utils.js:39-44): the body is
`JSON.stringify(data)`. -/
def post (transport : Transport) (baseURL endpoint : String) (data : Json) :
    Except String Json × Nat :=
  request transport baseURL endpoint ⟨some "POST", none, some (Json.stringify data)⟩

/-- `APIClient.put` (src/js/utils.js:47-52). -/
def put (transport : Transport) (baseURL endpoint : String) (data : Json) :
    Except String Json × Nat :=
  request transport baseURL endpoint ⟨some "PUT", none, some (Json.stringify data)⟩

/-- `APIClient.delete` (src/js/utils.js:55-59). -/
def delete (transport : Transport) (baseURL endpoint : String) : Except String Json × Nat :=
  request transport baseURL endpoint ⟨some "DELETE", none, none⟩

end JsUtils

/-! ## The ambient document tree -/

/-- An element node: tag name, `id` attribute (`""` = none), class list,
`innerHTML`, and the `disabled` form-control flag. -/
structure DomElem where
  tag : String
  idAttr : String
  classes : List String
  innerHTML : String
  disabled : Bool
deriving DecidableEq

/-- The document: its element nodes in tree order and
`document.body.style.overflow`. -/
structure DomDoc where
  elems : List DomElem
  bodyOverflow : String
deriving DecidableEq

/-- `document.getElementById` / `querySelector("#id")`: first element in tree
order with the given id (`none` = JS `null`). -/
def getById (d : DomDoc) (i : String) : Option DomElem :=
  d.elems.find? (fun e => e.idAttr == i)

/-- `document.querySelector(".c")`: first element carrying class `c`. -/
def queryByClass (d : DomDoc) (c : String) : Option DomElem :=
  d.elems.find? (fun e => e.classes.contains c)

/-- Mutate (in place) the first element satisfying `p`. -/
def updateFirst (p : DomElem → Bool) (f : DomElem → DomElem) : List DomElem → List DomElem
  | [] => []
  | e :: es => if p e then f e :: es else e :: updateFirst p f es

/-- Mutate the element `getElementById` resolves to. -/
def updateById (d : DomDoc) (i : String) (f : DomElem → DomElem) : DomDoc :=
  ⟨updateFirst (fun e => e.idAttr == i) f d.elems, d.bodyOverflow⟩

/-- Mutate the element `querySelector(".c")` resolves to. -/
def updateByClass (d : DomDoc) (c : String) (f : DomElem → DomElem) : DomDoc :=
  ⟨updateFirst (fun e => e.classes.contains c) f d.elems, d.bodyOverflow⟩

/-- `classList.add`: append the token unless already present. -/
def classAdd (c : String) (e : DomElem) : DomElem :=
  if c ∈ e.classes then e else { e with classes := e.classes ++ [c] }

/-- `classList.remove`: drop the token. -/
def classRemove (c : String) (e : DomElem) : DomElem :=
  { e with classes := e.classes.filter (fun c' => c' != c) }

/-- `classList.toggle`: remove if present, else add. -/
def classToggle (c : String) (e : DomElem) : DomElem :=
  if c ∈ e.classes then classRemove c e else classAdd c e

namespace Utils

namespace DOM

/-- `DOM.show` (src/utils.js:159-164) called with a string id: a missing
element is `null`, and `null.classList` throws — the flag records the
thrown `TypeError`. -/
def show_ (i : String) (d : DomDoc) : DomDoc × Bool :=
  match getById d i with
  | none => (d, true)
  | some _ => (updateById d i (classRemove "hidden"), false)

/-- `DOM.hide` (src/utils.js:167-172), string-id path; no null guard. -/
def hide (i : String) (d : DomDoc) : DomDoc × Bool :=
  match getById d i with
  | none => (d, true)
  | some _ => (updateById d i (classAdd "hidden"), false)

/-- `DOM.toggle` (src/utils.js:175-180), string-id path; no null guard. -/
def toggle (i : String) (d : DomDoc) : DomDoc × Bool :=
  match getById d i with
  | none => (d, true)
  | some _ => (updateById d i (classToggle "hidden"), false)

end DOM

namespace Modal

/-- `Modal.show` (src/utils.js:185-191): guarded by `if (modal)`, so a
missing node is a silent no-op; otherwise un-hide the node (via `DOM.show`
on the element itself) and set `document.body.style.overflow = "hidden"`. -/
def show_ (modalId : String) (d : DomDoc) : DomDoc × Bool :=
  match getById d modalId with
  | none => (d, false)
  | some _ =>
    ({ updateById d modalId (classRemove "hidden") with bodyOverflow := "hidden" }, false)

/-- `Modal.hide` (src/utils.js:193-199): guarded; hides the node and sets
`document.body.style.overflow = "auto"` (not the pre-show value). -/
def hide (modalId : String) (d : DomDoc) : DomDoc × Bool :=
  match getById d modalId with
  | none => (d, false)
  | some _ =>
    ({ updateById d modalId (classAdd "hidden") with bodyOverflow := "auto" }, false)

end Modal

namespace Loading

/-- `Loading.show` (src/utils.js:275-281): guarded by `if (element)`. -/
def show_ (elementId : String) (d : DomDoc) : DomDoc × Bool :=
  match getById d elementId with
  | none => (d, false)
  | some _ =>
    (updateById d elementId
      (fun e => { e with innerHTML := "<div class=\"loading\"></div>", disabled := true }),
     false)

/-- `Loading.hide` (src/utils.js:283-289): guarded; restores the
caller-supplied original content. -/
def hide (elementId : String) (originalContent : String) (d : DomDoc) : DomDoc × Bool :=
  match getById d elementId with
  | none => (d, false)
  | some _ =>
    (updateById d elementId
      (fun e => { e with innerHTML := originalContent, disabled := false }),
     false)

end Loading

namespace Notification

/-- The shared stylesheet text injected once per document
(src/utils.js:241-261; braces written as escapes). -/
def notificationCss : String :=
  ".notification \x7b position: fixed; top: 20px; right: 20px; " ++
  "padding: 1rem 1.5rem; border-radius: 0.5rem; color: white; " ++
  "font-weight: 500; z-index: 1001; animation: slideIn 0.3s ease; \x7d " ++
  ".notification-success \x7b background-color: var(--success); \x7d " ++
  ".notification-error \x7b background-color: var(--error); \x7d " ++
  ".notification-warning \x7b background-color: var(--warning); \x7d " ++
  ".notification-info \x7b background-color: var(--primary-color); \x7d " ++
  "@keyframes slideIn \x7b from \x7b transform: translateX(100%); opacity: 0; \x7d " ++
  "to \x7b transform: translateX(0); opacity: 1; \x7d \x7d"

/-- The `<style id="notification-styles">` element created by `DOM.create`. -/
def styleElem : DomElem :=
  ⟨"style", "notification-styles", [], notificationCss, false⟩

/-- The notification `<div>` built by `DOM.create` (src/utils.js:233-236):
`className` is the two space-separated tokens, `innerHTML` the message. -/
def notifElem (message ty : String) : DomElem :=
  ⟨"div", "", ["notification", "notification-" ++ ty], message, false⟩

/-- `Notification.show` (src/utils.js:232-270).  The guard
`!document.querySelector("#notification-styles")` injects the stylesheet
into the head only when no element with the marker id exists; the
notification node is then appended to the body.  The `setTimeout` that
removes the notification node after `duration` ms is not modelled: it
never touches the style element, which is all C8 is about. -/
def show_ (message ty : String) (_duration : Nat) (d : DomDoc) : DomDoc :=
  let d1 :=
    if (getById d "notification-styles").isSome then d
    else { d with elems := d.elems ++ [styleElem] }
  { d1 with elems := d1.elems ++ [notifElem message ty] }

/-- Number of elements carrying the marker id `notification-styles`. -/
def markerCount (d : DomDoc) : Nat :=
  d.elems.countP (fun e => e.idAttr == "notification-styles")

/-- The sub-list of elements carrying the marker id. -/
def markerElems (d : DomDoc) : List DomElem :=
  d.elems.filter (fun e => e.idAttr == "notification-styles")

/-- A sequence of `Notification.show` calls (message, type; default
duration) against one document. -/
def showSeq (calls : List (String × String)) (d : DomDoc) : DomDoc :=
  calls.foldl (fun doc c => show_ c.1 c.2 3000 doc) d

end Notification

end Utils

namespace JsUtils

/-- `openModal` (src/js/utils.js:141-147): guarded by `if (modal)`. -/
def openModal (modalId : String) (d : DomDoc) : DomDoc × Bool :=
  match getById d modalId with
  | none => (d, false)
  | some _ =>
    ({ updateById d modalId (classRemove "hidden") with bodyOverflow := "hidden" }, false)

/-- `closeModal` (src/js/utils.js:149-155): guarded; sets overflow to
`"auto"` unconditionally. -/
def closeModal (modalId : String) (d : DomDoc) : DomDoc × Bool :=
  match getById d modalId with
  | none => (d, false)
  | some _ =>
    ({ updateById d modalId (classAdd "hidden") with bodyOverflow := "auto" }, false)

/-- `toggleSidebar` (src/js/utils.js:217-223): both `querySelector` calls
run first; `sidebar.classList.toggle` throws on a missing sidebar, and a
missing `.main-content` throws only after the sidebar was already toggled
(toggling `"open"` cannot change which element is first with class
`"main-content"`, so looking it up before or after that mutation is
equivalent). -/
def toggleSidebar (d : DomDoc) : DomDoc × Bool :=
  match queryByClass d "sidebar", queryByClass d "main-content" with
  | none, _ => (d, true)
  | some _, none => (updateByClass d "sidebar" (classToggle "open"), true)
  | some _, some _ =>
    (updateByClass (updateByClass d "sidebar" (classToggle "open"))
      "main-content" (classToggle "expanded"), false)

end JsUtils

/-! ## Auxiliary definitions used only to state the claims -/

/-- Lookup of a field's entry in the errors association list (field keys are
unique, matching a JS object). -/
def lookupErr (f : String) : List (String × String) → Option String
  | [] => none
  | (k, v) :: es => if k = f then some v else lookupErr f es

/-- Truncate an object rule's parameter list to its first entry; named and
function rules are untouched (used to state that `validateForm` reads only
`Object.values(params)[0]`). -/
def truncParams : Utils.Rule → Utils.Rule
  | .obj v m ps => .obj v m (ps.take 1)
  | r => r

/-- Drop the rules whose `typeof` is `"function"` from a rule list. -/
def dropFnRules (rs : List Utils.Rule) : List Utils.Rule :=
  rs.filter Utils.isNamedRule

/-- Modelled from the claim: the header map C3 says `request` produces — the
default `Content-Type` merged with the caller headers, caller winning on
conflicting keys and the default retained otherwise. -/
def claimMergedHeaders (callerHeaders : HeaderMap) : HeaderMap :=
  fun k =>
    match callerHeaders k with
    | some v => some v
    | none => defaultHeaders k

/-- Modelled from the claim: the strip set C5 ascribes to the src/utils.js
phone variant — whitespace, parentheses and dashes. -/
def claimPhoneStrip (c : Char) : Bool :=
  jsWhitespace c || c == '(' || c == ')' || c == '-'

/-- Modelled from the claim: the src/utils.js phone validator as C5 describes
it (strip whitespace/parentheses/dashes, then match the regex). -/
def claimPhoneUtils (s : String) : Bool :=
  phoneRegexTest (String.mk (s.toList.filter (fun c => !claimPhoneStrip c)))

/-! Concrete inputs for witnesses and counterexamples. -/

/-- A concrete value bag: `email` present but invalid, everything else
absent. -/
def c1V : String → Option String :=
  fun f => if f = "email" then some "nope" else none

/-- A concrete rule spec over two fields. -/
def c1R : List (String × List Utils.Rule) :=
  [("email", [Utils.Rule.name "required", Utils.Rule.name "email"]),
   ("name", [Utils.Rule.name "required"])]

/-- The result `validateForm c1V c1R` computes. -/
def c1res : Utils.FormResult :=
  ⟨false, [("email", "email is email"), ("name", "name is required")]⟩

/-- A directly-supplied predicate rule that fails on every value. -/
def c2fnRule : Option String → Option String :=
  fun _ => some "boom"

/-- A caller-supplied header bag carrying only `Authorization`. -/
def c3AuthHeaders : HeaderMap :=
  fun k => if k = "Authorization" then some "tok" else none

/-- A one-element document whose body scroll style is `scroll`. -/
def c6doc : DomDoc :=
  ⟨[⟨"div", "m", [], "", false⟩], "scroll"⟩

/-- The empty document with default scrolling. -/
def emptyDoc : DomDoc :=
  ⟨[], "visible"⟩

/-- A value bag agreeing with `c9V2` on field `a` but not elsewhere. -/
def c9V1 : String → Option String :=
  fun f => if f = "a" then some "x" else some "junk"

/-- A value bag agreeing with `c9V1` on field `a` but not elsewhere. -/
def c9V2 : String → Option String :=
  fun f => if f = "a" then some "x" else none

/-- A rule spec naming only field `a`. -/
def c9R : List (String × List Utils.Rule) :=
  [("a", [Utils.Rule.name "required"])]

/-- A value bag binding every field to the empty string. -/
def c2V : String → Option String :=
  fun _ => some ""

/-! ## Helper lemmas: the per-field rule loop of src/utils.js -/

theorem runRules_ok_none_iff (field : String) (v : Option String) (rs : List Utils.Rule) :
    Utils.runRules field v rs = .ok none ↔
      ∀ r ∈ rs, Utils.evalRule field v r = .ok none := by
  induction rs with
  | nil => simp [Utils.runRules]
  | cons r₀ rs ih =>
    cases he : Utils.evalRule field v r₀ with
    | error e => simp [Utils.runRules, he]
    | ok o =>
      cases o with
      | none => simp [Utils.runRules, he, ih]
      | some m => simp [Utils.runRules, he]

theorem runRules_ok_some_iff (field : String) (v : Option String) (rs : List Utils.Rule)
    (m : String) :
    Utils.runRules field v rs = .ok (some m) ↔
      ∃ pre r suf, rs = pre ++ r :: suf ∧ Utils.evalRule field v r = .ok (some m) ∧
        ∀ r' ∈ pre, Utils.evalRule field v r' = .ok none := by
  induction rs with
  | nil =>
    simp only [Utils.runRules]
    constructor
    · intro h; cases h
    · rintro ⟨pre, r, suf, heq, -, -⟩
      cases pre <;> simp at heq
  | cons r₀ rs ih =>
    cases he : Utils.evalRule field v r₀ with
    | error e =>
      simp only [Utils.runRules, he]
      constructor
      · intro h; cases h
      · rintro ⟨pre, r, suf, heq, hr, hpre⟩
        cases pre with
        | nil =>
          simp at heq
          rw [heq.1] at he; rw [he] at hr; cases hr
        | cons p pre' =>
          simp at heq
          have hp := hpre p (by simp)
          rw [heq.1] at he; rw [he] at hp; cases hp
    | ok o =>
      cases o with
      | some m' =>
        simp only [Utils.runRules, he]
        constructor
        · intro h
          have hm : m' = m := by cases h; rfl
          exact ⟨[], r₀, rs, by simp, by rw [he, hm], by simp⟩
        · rintro ⟨pre, r, suf, heq, hr, hpre⟩
          cases pre with
          | nil =>
            simp at heq
            rw [heq.1] at he; rw [he] at hr
            cases hr; rfl
          | cons p pre' =>
            simp at heq
            have hp := hpre p (by simp)
            rw [heq.1] at he; rw [he] at hp; cases hp
      | none =>
        simp only [Utils.runRules, he]
        rw [ih]
        constructor
        · rintro ⟨pre, r, suf, heq, hr, hpre⟩
          exact ⟨r₀ :: pre, r, suf, by simp [heq], hr, by
            intro r' hr'
            rcases List.mem_cons.mp hr' with h | h
            · rw [h]; exact he
            · exact hpre r' h⟩
        · rintro ⟨pre, r, suf, heq, hr, hpre⟩
          cases pre with
          | nil =>
            simp at heq
            rw [heq.1] at he; rw [he] at hr; cases hr
          | cons p pre' =>
            simp at heq
            exact ⟨pre', r, suf, heq.2, hr, fun r' h => hpre r' (List.mem_cons_of_mem p h)⟩

theorem validateFormAux_lookup_none (V : String → Option String) :
    ∀ (R : List (String × List Utils.Rule)) errs,
      Utils.validateFormAux V R = .ok errs →
      ∀ f, f ∉ R.map Prod.fst → lookupErr f errs = none := by
  intro R
  induction R with
  | nil =>
    intro errs h f _
    simp [Utils.validateFormAux] at h
    simp [h, lookupErr]
  | cons fr rest ih =>
    obtain ⟨f₀, frs₀⟩ := fr
    intro errs h f hf
    simp only [List.map_cons, List.mem_cons, not_or] at hf
    cases hr : Utils.runRules f₀ (V f₀) frs₀ with
    | error e => simp [Utils.validateFormAux, hr] at h
    | ok o =>
      cases o with
      | none =>
        simp only [Utils.validateFormAux, hr] at h
        exact ih errs h f hf.2
      | some m =>
        simp only [Utils.validateFormAux, hr] at h
        cases ha : Utils.validateFormAux V rest with
        | error e => rw [ha] at h; cases h
        | ok errs' =>
          rw [ha] at h
          cases h
          simp [lookupErr, Ne.symm hf.1]
          exact ih errs' ha f hf.2

theorem validateFormAux_lookup_mem (V : String → Option String) :
    ∀ (R : List (String × List Utils.Rule)) errs,
      (R.map Prod.fst).Nodup →
      Utils.validateFormAux V R = .ok errs →
      ∀ f frs, (f, frs) ∈ R →
        ∃ o, Utils.runRules f (V f) frs = .ok o ∧ lookupErr f errs = o := by
  intro R
  induction R with
  | nil => intro errs _ _ f frs hm; cases hm
  | cons fr rest ih =>
    obtain ⟨f₀, frs₀⟩ := fr
    intro errs hnd h f frs hm
    simp only [List.map_cons, List.nodup_cons] at hnd
    cases hr : Utils.runRules f₀ (V f₀) frs₀ with
    | error e => simp [Utils.validateFormAux, hr] at h
    | ok o =>
      cases o with
      | none =>
        simp only [Utils.validateFormAux, hr] at h
        rcases List.mem_cons.mp hm with hh | ht
        · obtain ⟨h1, h2⟩ := Prod.mk.injEq .. ▸ hh
          cases hh
          refine ⟨none, hr, ?_⟩
          exact validateFormAux_lookup_none V rest errs h f₀ hnd.1
        · exact ih errs hnd.2 h f frs ht
      | some m =>
        simp only [Utils.validateFormAux, hr] at h
        cases ha : Utils.validateFormAux V rest with
        | error e => rw [ha] at h; cases h
        | ok errs' =>
          rw [ha] at h
          cases h
          rcases List.mem_cons.mp hm with hh | ht
          · cases hh
            exact ⟨some m, hr, by simp [lookupErr]⟩
          · have hne : f ≠ f₀ := by
              intro hc
              exact hnd.1 (hc ▸ (List.mem_map.mpr ⟨(f, frs), ht, rfl⟩))
            obtain ⟨o, ho, hl⟩ := ih errs' hnd.2 ha f frs ht
            exact ⟨o, ho, by simpa [lookupErr, Ne.symm hne] using hl⟩

/-! ## Helper lemmas: the rule loop of src/js/utils.js -/

theorem js_runRules_none_iff (v : Option String) (rs : List JsUtils.JsRule) :
    JsUtils.runRules v rs = none ↔ ∀ r ∈ rs, JsUtils.truthyMsg (r v) = false := by
  induction rs with
  | nil => simp [JsUtils.runRules]
  | cons r₀ rs ih =>
    cases ht : JsUtils.truthyMsg (r₀ v) with
    | true =>
      simp only [JsUtils.runRules, ht, if_true]
      constructor
      · intro h
        cases he : r₀ v with
        | none => rw [he] at ht; cases ht
        | some m => rw [he] at h; cases h
      · intro h
        have := h r₀ (by simp)
        rw [this] at ht; cases ht
    | false =>
      simp only [JsUtils.runRules]
      rw [if_neg (by simp [ht]), ih]
      constructor
      · intro h r hr
        rcases List.mem_cons.mp hr with hh | hh
        · rw [hh]; exact ht
        · exact h r hh
      · intro h r hr
        exact h r (List.mem_cons_of_mem r₀ hr)

theorem js_runRules_some_iff (v : Option String) (rs : List JsUtils.JsRule) (m : String) :
    JsUtils.runRules v rs = some m ↔
      ∃ pre r suf, rs = pre ++ r :: suf ∧ r v = some m ∧ JsUtils.truthyMsg (r v) = true ∧
        ∀ r' ∈ pre, JsUtils.truthyMsg (r' v) = false := by
  induction rs with
  | nil =>
    simp only [JsUtils.runRules]
    constructor
    · intro h; cases h
    · rintro ⟨pre, r, suf, heq, -, -, -⟩
      cases pre <;> simp at heq
  | cons r₀ rs ih =>
    cases ht : JsUtils.truthyMsg (r₀ v) with
    | true =>
      simp only [JsUtils.runRules, ht, if_true]
      constructor
      · intro h
        exact ⟨[], r₀, rs, by simp, h, ht, by simp⟩
      · rintro ⟨pre, r, suf, heq, hr, htr, hpre⟩
        cases pre with
        | nil =>
          simp at heq
          rw [heq.1]; exact hr
        | cons p pre' =>
          simp at heq
          have hp := hpre p (by simp)
          rw [heq.1] at ht; rw [ht] at hp; cases hp
    | false =>
      simp only [JsUtils.runRules]
      rw [if_neg (by simp [ht]), ih]
      constructor
      · rintro ⟨pre, r, suf, heq, hr, htr, hpre⟩
        exact ⟨r₀ :: pre, r, suf, by simp [heq], hr, htr, by
          intro r' hr'
          rcases List.mem_cons.mp hr' with h | h
          · rw [h]; exact ht
          · exact hpre r' h⟩
      · rintro ⟨pre, r, suf, heq, hr, htr, hpre⟩
        cases pre with
        | nil =>
          simp at heq
          rw [heq.1] at ht; rw [ht] at htr; cases htr
        | cons p pre' =>
          simp at heq
          exact ⟨pre', r, suf, heq.2, hr, htr, fun r' h => hpre r' (List.mem_cons_of_mem p h)⟩

theorem js_validateForm_lookup_none (V : String → Option String) :
    ∀ (R : List (String × List JsUtils.JsRule)) f, f ∉ R.map Prod.fst →
      lookupErr f (JsUtils.validateForm V R) = none := by
  intro R
  induction R with
  | nil => intro f _; simp [JsUtils.validateForm, lookupErr]
  | cons fr rest ih =>
    obtain ⟨f₀, frs₀⟩ := fr
    intro f hf
    simp only [List.map_cons, List.mem_cons, not_or] at hf
    cases hr : JsUtils.runRules (V f₀) frs₀ with
    | none =>
      simp only [JsUtils.validateForm, hr]
      exact ih f hf.2
    | some m =>
      simp only [JsUtils.validateForm, hr]
      simp [lookupErr, Ne.symm hf.1]
      exact ih f hf.2

theorem js_validateForm_lookup_mem (V : String → Option String) :
    ∀ (R : List (String × List JsUtils.JsRule)),
      (R.map Prod.fst).Nodup →
      ∀ f frs, (f, frs) ∈ R →
        lookupErr f (JsUtils.validateForm V R) = JsUtils.runRules (V f) frs := by
  intro R
  induction R with
  | nil => intro _ f frs hm; cases hm
  | cons fr rest ih =>
    obtain ⟨f₀, frs₀⟩ := fr
    intro hnd f frs hm
    simp only [List.map_cons, List.nodup_cons] at hnd
    rcases List.mem_cons.mp hm with hh | ht
    · cases hh
      cases hr : JsUtils.runRules (V f₀) frs₀ with
      | none =>
        simp only [JsUtils.validateForm, hr]
        rw [js_validateForm_lookup_none V rest f₀ hnd.1]
      | some m =>
        simp only [JsUtils.validateForm, hr]
        simp [lookupErr]
    · have hne : f ≠ f₀ := by
        intro hc
        exact hnd.1 (hc ▸ (List.mem_map.mpr ⟨(f, frs), ht, rfl⟩))
      cases hr : JsUtils.runRules (V f₀) frs₀ with
      | none =>
        simp only [JsUtils.validateForm, hr]
        exact ih hnd.2 f frs ht
      | some m =>
        simp only [JsUtils.validateForm, hr]
        simp only [lookupErr, if_neg (Ne.symm hne)]
        exact ih hnd.2 f frs ht

/-! ## Helper lemmas: non-interference and parameter use -/

theorem validateFormAux_congr (V1 V2 : String → Option String) :
    ∀ (R : List (String × List Utils.Rule)),
      (∀ f, f ∈ R.map Prod.fst → V1 f = V2 f) →
      Utils.validateFormAux V1 R = Utils.validateFormAux V2 R := by
  intro R
  induction R with
  | nil => intro _; rfl
  | cons fr rest ih =>
    obtain ⟨f₀, frs₀⟩ := fr
    intro hV
    have h0 : V1 f₀ = V2 f₀ := hV f₀ (by simp)
    have hrest := ih (fun f hf => hV f (by simp [hf]))
    simp only [Utils.validateFormAux, h0, hrest]

theorem validateForm_congr (V1 V2 : String → Option String)
    (R : List (String × List Utils.Rule))
    (hV : ∀ f, f ∈ R.map Prod.fst → V1 f = V2 f) :
    Utils.validateForm V1 R = Utils.validateForm V2 R := by
  simp only [Utils.validateForm, validateFormAux_congr V1 V2 R hV]

theorem js_validateForm_congr (V1 V2 : String → Option String) :
    ∀ (R : List (String × List JsUtils.JsRule)),
      (∀ f, f ∈ R.map Prod.fst → V1 f = V2 f) →
      JsUtils.validateForm V1 R = JsUtils.validateForm V2 R := by
  intro R
  induction R with
  | nil => intro _; rfl
  | cons fr rest ih =>
    obtain ⟨f₀, frs₀⟩ := fr
    intro hV
    have h0 : V1 f₀ = V2 f₀ := hV f₀ (by simp)
    have hrest := ih (fun f hf => hV f (by simp [hf]))
    simp only [JsUtils.validateForm, h0, hrest]

theorem validateFormAux_keys_subset (V : String → Option String) :
    ∀ (R : List (String × List Utils.Rule)) errs,
      Utils.validateFormAux V R = .ok errs →
      ∀ f m, (f, m) ∈ errs → f ∈ R.map Prod.fst := by
  intro R
  induction R with
  | nil =>
    intro errs h f m hm
    simp [Utils.validateFormAux] at h
    rw [h] at hm; cases hm
  | cons fr rest ih =>
    obtain ⟨f₀, frs₀⟩ := fr
    intro errs h f m hm
    cases hr : Utils.runRules f₀ (V f₀) frs₀ with
    | error e => simp [Utils.validateFormAux, hr] at h
    | ok o =>
      cases o with
      | none =>
        simp only [Utils.validateFormAux, hr] at h
        exact List.mem_cons_of_mem _ (ih errs h f m hm)
      | some m' =>
        simp only [Utils.validateFormAux, hr] at h
        cases ha : Utils.validateFormAux V rest with
        | error e => rw [ha] at h; cases h
        | ok errs' =>
          rw [ha] at h
          cases h
          rcases List.mem_cons.mp hm with hh | ht
          · simp [Prod.ext_iff] at hh
            simp [hh.1]
          · exact List.mem_cons_of_mem _ (ih errs' ha f m ht)

theorem js_validateForm_keys_subset (V : String → Option String) :
    ∀ (R : List (String × List JsUtils.JsRule)) f m,
      (f, m) ∈ JsUtils.validateForm V R → f ∈ R.map Prod.fst := by
  intro R
  induction R with
  | nil => intro f m hm; cases hm
  | cons fr rest ih =>
    obtain ⟨f₀, frs₀⟩ := fr
    intro f m hm
    cases hr : JsUtils.runRules (V f₀) frs₀ with
    | none =>
      rw [JsUtils.validateForm, hr] at hm
      exact List.mem_cons_of_mem _ (ih f m hm)
    | some m' =>
      rw [JsUtils.validateForm, hr] at hm
      rcases List.mem_cons.mp hm with hh | ht
      · simp [Prod.ext_iff] at hh
        simp [hh.1]
      · exact List.mem_cons_of_mem _ (ih f m ht)

theorem evalRule_truncParams (field : String) (v : Option String) (r : Utils.Rule) :
    Utils.evalRule field v (truncParams r) = Utils.evalRule field v r := by
  cases r with
  | name n => rfl
  | fn f => rfl
  | obj vn m ps =>
    have hhead : (ps.take 1).head? = ps.head? := by cases ps <;> rfl
    simp only [truncParams, Utils.evalRule, hhead]

theorem runRules_truncParams (field : String) (v : Option String) :
    ∀ rs : List Utils.Rule,
      Utils.runRules field v (rs.map truncParams) = Utils.runRules field v rs := by
  intro rs
  induction rs with
  | nil => rfl
  | cons r rs ih =>
    simp only [List.map_cons, Utils.runRules, evalRule_truncParams, ih]

theorem runRules_dropFn (field : String) (v : Option String) :
    ∀ rs : List Utils.Rule,
      Utils.runRules field v (dropFnRules rs) = Utils.runRules field v rs := by
  intro rs
  induction rs with
  | nil => rfl
  | cons r rs ih =>
    cases r with
    | fn f =>
      simp only [dropFnRules, List.filter_cons]
      simp only [Utils.isNamedRule, Bool.false_eq_true, if_false]
      rw [show Utils.runRules field v (Utils.Rule.fn f :: rs) =
            Utils.runRules field v rs from rfl]
      exact ih
    | name n =>
      simp only [dropFnRules, List.filter_cons]
      simp only [Utils.isNamedRule, if_true]
      simp only [Utils.runRules]
      cases Utils.evalRule field v (Utils.Rule.name n) with
      | error e => rfl
      | ok o => cases o with
        | some m => rfl
        | none => exact ih
    | obj vn m ps =>
      simp only [dropFnRules, List.filter_cons]
      simp only [Utils.isNamedRule, if_true]
      simp only [Utils.runRules]
      cases Utils.evalRule field v (Utils.Rule.obj vn m ps) with
      | error e => rfl
      | ok o => cases o with
        | some m' => rfl
        | none => exact ih

theorem validateFormAux_truncParams (V : String → Option String) :
    ∀ R : List (String × List Utils.Rule),
      Utils.validateFormAux V (R.map (fun fr => (fr.1, fr.2.map truncParams))) =
        Utils.validateFormAux V R := by
  intro R
  induction R with
  | nil => rfl
  | cons fr rest ih =>
    obtain ⟨f₀, frs₀⟩ := fr
    simp only [List.map_cons, Utils.validateFormAux, runRules_truncParams, ih]

theorem validateFormAux_dropFn (V : String → Option String) :
    ∀ R : List (String × List Utils.Rule),
      Utils.validateFormAux V (R.map (fun fr => (fr.1, dropFnRules fr.2))) =
        Utils.validateFormAux V R := by
  intro R
  induction R with
  | nil => rfl
  | cons fr rest ih =>
    obtain ⟨f₀, frs₀⟩ := fr
    simp only [List.map_cons, Utils.validateFormAux, runRules_dropFn, ih]

/-! ## Helper lemmas: the phone regex -/

theorem phoneDigits_iff (cs : List Char) :
    phoneDigits cs = true ↔
      ∃ d ds, cs = d :: ds ∧ '1' ≤ d ∧ d ≤ '9' ∧
        (∀ c ∈ ds, c.isDigit = true) ∧ ds.length ≤ 15 := by
  cases cs with
  | nil =>
    simp only [phoneDigits]
    constructor
    · intro h; cases h
    · rintro ⟨d, ds, heq, -⟩; cases heq
  | cons d ds =>
    simp only [phoneDigits, Bool.and_eq_true, decide_eq_true_eq, List.all_eq_true]
    constructor
    · rintro ⟨⟨⟨h1, h2⟩, h3⟩, h4⟩
      exact ⟨d, ds, rfl, h1, h2, h3, h4⟩
    · rintro ⟨d', ds', heq, h1, h2, h3, h4⟩
      cases heq
      exact ⟨⟨⟨h1, h2⟩, h3⟩, h4⟩

theorem phoneRegexTest_iff (cs : List Char) :
    phoneRegexTest (String.mk cs) = true ↔ PhoneLang cs := by
  rw [show phoneRegexTest (String.mk cs) =
        (match cs with
         | '+' :: rest => phoneDigits rest
         | cs => phoneDigits cs) from rfl]
  split
  · rename_i rest
    rw [phoneDigits_iff]
    constructor
    · rintro ⟨d, ds, heq, h1, h2, h3, h4⟩
      exact ⟨['+'], d, ds, Or.inr rfl, by simp [heq], h1, h2, h3, h4⟩
    · rintro ⟨pre, d, ds, hpre, heq, h1, h2, h3, h4⟩
      rcases hpre with hpre | hpre
      · rw [hpre] at heq
        simp at heq
        rw [← heq.1] at h1
        exact absurd h1 (by decide)
      · rw [hpre] at heq
        simp at heq
        exact ⟨d, ds, heq, h1, h2, h3, h4⟩
  · rename_i cs' hnp
    rw [phoneDigits_iff]
    constructor
    · rintro ⟨d, ds, heq, h1, h2, h3, h4⟩
      exact ⟨[], d, ds, Or.inl rfl, by simp [heq], h1, h2, h3, h4⟩
    · rintro ⟨pre, d, ds, hpre, heq, h1, h2, h3, h4⟩
      rcases hpre with hpre | hpre
      · rw [hpre] at heq
        simp at heq
        exact ⟨d, ds, heq, h1, h2, h3, h4⟩
      · rw [hpre] at heq
        simp at heq
        exact absurd heq (hnp (d :: ds))

/-! ## Helper lemmas: the document model -/

theorem find?_updateFirst (p : DomElem → Bool) (f : DomElem → DomElem)
    (hf : ∀ e, p e = true → p (f e) = true) :
    ∀ l : List DomElem, (updateFirst p f l).find? p = (l.find? p).map f := by
  intro l
  induction l with
  | nil => rfl
  | cons e es ih =>
    cases hp : p e with
    | true =>
      rw [updateFirst, if_pos hp, List.find?_cons_of_pos _ (hf e hp),
        List.find?_cons_of_pos _ hp]
      rfl
    | false =>
      rw [updateFirst, if_neg (by simp [hp]), List.find?_cons_of_neg _ (by simp [hp]),
        List.find?_cons_of_neg _ (by simp [hp])]
      exact ih

theorem getById_updateById (d : DomDoc) (i : String) (f : DomElem → DomElem)
    (hf : ∀ e, (f e).idAttr = e.idAttr) :
    getById (updateById d i f) i = (getById d i).map f := by
  unfold getById updateById
  exact find?_updateFirst _ f
    (fun e hp => by rw [show ((f e).idAttr == i) = (e.idAttr == i) from by rw [hf e]]; exact hp)
    d.elems

theorem mem_classAdd (c : String) (e : DomElem) : c ∈ (classAdd c e).classes := by
  unfold classAdd
  by_cases h : c ∈ e.classes
  · rw [if_pos h]; exact h
  · rw [if_neg h]; simp

theorem classAdd_idAttr (c : String) (e : DomElem) : (classAdd c e).idAttr = e.idAttr := by
  unfold classAdd
  by_cases h : c ∈ e.classes
  · rw [if_pos h]
  · rw [if_neg h]

theorem classRemove_idAttr (c : String) (e : DomElem) :
    (classRemove c e).idAttr = e.idAttr := rfl

theorem marker_isSome_iff (d : DomDoc) :
    (getById d "notification-styles").isSome = true ↔
      Utils.Notification.markerCount d ≠ 0 := by
  unfold getById Utils.Notification.markerCount
  rw [List.find?_isSome]
  constructor
  · rintro ⟨e, he, hp⟩
    have : 0 < d.elems.countP (fun e => e.idAttr == "notification-styles") :=
      List.countP_pos_iff.mpr ⟨e, he, hp⟩
    omega
  · intro h
    have : 0 < d.elems.countP (fun e => e.idAttr == "notification-styles") :=
      Nat.pos_of_ne_zero h
    exact List.countP_pos_iff.mp this

theorem markerCount_show (m t : String) (dur : Nat) (d : DomDoc) :
    Utils.Notification.markerCount (Utils.Notification.show_ m t dur d) =
      if Utils.Notification.markerCount d = 0 then 1
      else Utils.Notification.markerCount d := by
  by_cases hg : (getById d "notification-styles").isSome = true
  · have hne := (marker_isSome_iff d).mp hg
    rw [if_neg hne]
    unfold Utils.Notification.show_
    rw [if_pos hg]
    unfold Utils.Notification.markerCount
    rw [List.countP_append]
    simp [Utils.Notification.notifElem]
  · have hz : Utils.Notification.markerCount d = 0 := by
      by_contra hc
      exact hg ((marker_isSome_iff d).mpr hc)
    rw [if_pos hz]
    unfold Utils.Notification.show_
    rw [if_neg hg]
    unfold Utils.Notification.markerCount
    rw [List.countP_append, List.countP_append]
    unfold Utils.Notification.markerCount at hz
    rw [hz]
    simp [Utils.Notification.notifElem, Utils.Notification.styleElem]

theorem markerElems_show_of_marked (m t : String) (dur : Nat) (d : DomDoc)
    (h : Utils.Notification.markerCount d ≠ 0) :
    Utils.Notification.markerElems (Utils.Notification.show_ m t dur d) =
      Utils.Notification.markerElems d := by
  have hg : (getById d "notification-styles").isSome = true := (marker_isSome_iff d).mpr h
  unfold Utils.Notification.show_
  rw [if_pos hg]
  unfold Utils.Notification.markerElems
  rw [List.filter_append]
  simp [Utils.Notification.notifElem]

theorem markerCount_showSeq_of_one :
    ∀ (calls : List (String × String)) (d : DomDoc),
      Utils.Notification.markerCount d = 1 →
      Utils.Notification.markerCount (Utils.Notification.showSeq calls d) = 1 := by
  intro calls
  induction calls with
  | nil => intro d h; exact h
  | cons c cs ih =>
    intro d h
    have hstep : Utils.Notification.markerCount (Utils.Notification.show_ c.1 c.2 3000 d) = 1 := by
      rw [markerCount_show, h]
      simp
    exact ih _ hstep

theorem markerCount_showSeq_le_one :
    ∀ (calls : List (String × String)) (d : DomDoc),
      Utils.Notification.markerCount d = 0 ∨ Utils.Notification.markerCount d = 1 →
      Utils.Notification.markerCount (Utils.Notification.showSeq calls d) = 0 ∨
        Utils.Notification.markerCount (Utils.Notification.showSeq calls d) = 1 := by
  intro calls
  induction calls with
  | nil => intro d h; exact h
  | cons c cs ih =>
    intro d h
    apply ih
    right
    rw [markerCount_show]
    rcases h with h | h <;> simp [h]

/-! ## Claim theorems -/

/-- C1: for every value bag and rule spec (with the distinct field keys a JS
object guarantees) on which `validateForm` returns normally, the result maps
a field to a message iff that field's rule list decomposes as passing rules
followed by a first failing rule producing exactly that message (so no later
rule of the field contributes anything, and a crashing later rule is never
reached); fields whose rules all pass, and fields not named in the rule
spec, are absent.  Stated for src/utils.js (where a single rule fails with
message `m` when `evalRule` yields `.ok (some m)`) and for src/js/utils.js
(where a rule fails when its returned message is truthy). -/
theorem c1_validateForm_first_failing :
    (∀ (V : String → Option String) (R : List (String × List Utils.Rule))
       (res : Utils.FormResult),
      (R.map Prod.fst).Nodup → Utils.validateForm V R = .ok res →
      (∀ field frs, (field, frs) ∈ R →
        ((lookupErr field res.errors = none ↔
            ∀ r ∈ frs, Utils.evalRule field (V field) r = .ok none) ∧
         (∀ m, lookupErr field res.errors = some m ↔
            ∃ pre r suf, frs = pre ++ r :: suf ∧
              Utils.evalRule field (V field) r = .ok (some m) ∧
              ∀ r' ∈ pre, Utils.evalRule field (V field) r' = .ok none))) ∧
      (∀ field, field ∉ R.map Prod.fst → lookupErr field res.errors = none))
    ∧
    (∀ (V : String → Option String) (R : List (String × List JsUtils.JsRule)),
      (R.map Prod.fst).Nodup →
      (∀ field frs, (field, frs) ∈ R →
        ((lookupErr field (JsUtils.validateForm V R) = none ↔
            ∀ r ∈ frs, JsUtils.truthyMsg (r (V field)) = false) ∧
         (∀ m, lookupErr field (JsUtils.validateForm V R) = some m ↔
            ∃ pre r suf, frs = pre ++ r :: suf ∧ r (V field) = some m ∧
              JsUtils.truthyMsg (r (V field)) = true ∧
              ∀ r' ∈ pre, JsUtils.truthyMsg (r' (V field)) = false))) ∧
      (∀ field, field ∉ R.map Prod.fst →
        lookupErr field (JsUtils.validateForm V R) = none)) := by
  constructor
  · intro V R res hnd hok
    have ha : Utils.validateFormAux V R = .ok res.errors := by
      cases ha' : Utils.validateFormAux V R with
      | error e => rw [Utils.validateForm, ha'] at hok; cases hok
      | ok errs => rw [Utils.validateForm, ha'] at hok; cases hok; rfl
    constructor
    · intro field frs hm
      obtain ⟨o, ho, hl⟩ := validateFormAux_lookup_mem V R res.errors hnd ha field frs hm
      constructor
      · rw [hl]
        constructor
        · intro h
          rw [h] at ho
          exact (runRules_ok_none_iff _ _ _).mp ho
        · intro h
          have hrn := (runRules_ok_none_iff _ _ _).mpr h
          rw [ho] at hrn
          simpa using hrn
      · intro m
        rw [hl]
        constructor
        · intro h
          rw [h] at ho
          exact (runRules_ok_some_iff _ _ _ _).mp ho
        · intro h
          have hrn := (runRules_ok_some_iff _ _ _ _).mpr h
          rw [ho] at hrn
          simpa using hrn
    · intro field hf
      exact validateFormAux_lookup_none V R res.errors ha field hf
  · intro V R hnd
    constructor
    · intro field frs hm
      have hl := js_validateForm_lookup_mem V R hnd field frs hm
      constructor
      · rw [hl]
        exact js_runRules_none_iff _ _
      · intro m
        rw [hl]
        exact js_runRules_some_iff _ _ m
    · exact js_validateForm_lookup_none V R

/-- C1 witness: the characterization applied to the concrete bag `c1V` and
rule spec `c1R`, whose hypotheses hold by computation. -/
theorem c1_witness : lookupErr "zzz" c1res.errors = none := by
  have h := c1_validateForm_first_failing.1 c1V c1R c1res (by decide) (by rfl)
  exact h.2 "zzz" (by decide)

/-- C9: the result of both `validateForm`s (including the derived `isValid`
flag) depends only on the entries of the value bag at fields named in the
rule spec, and every key of the errors mapping is a key of the rule spec. -/
theorem c9_validateForm_noninterference :
    (∀ (V1 V2 : String → Option String) (R : List (String × List Utils.Rule)),
      (∀ f, f ∈ R.map Prod.fst → V1 f = V2 f) →
      Utils.validateForm V1 R = Utils.validateForm V2 R) ∧
    (∀ (V : String → Option String) (R : List (String × List Utils.Rule))
       (res : Utils.FormResult),
      Utils.validateForm V R = .ok res →
      ∀ f m, (f, m) ∈ res.errors → f ∈ R.map Prod.fst) ∧
    (∀ (V1 V2 : String → Option String) (R : List (String × List JsUtils.JsRule)),
      (∀ f, f ∈ R.map Prod.fst → V1 f = V2 f) →
      JsUtils.validateForm V1 R = JsUtils.validateForm V2 R) ∧
    (∀ (V : String → Option String) (R : List (String × List JsUtils.JsRule)) (f m : String),
      (f, m) ∈ JsUtils.validateForm V R → f ∈ R.map Prod.fst) := by
  refine ⟨validateForm_congr, ?_, js_validateForm_congr, js_validateForm_keys_subset⟩
  intro V R res hok f m hm
  have ha : Utils.validateFormAux V R = .ok res.errors := by
    cases ha' : Utils.validateFormAux V R with
    | error e => rw [Utils.validateForm, ha'] at hok; cases hok
    | ok errs => rw [Utils.validateForm, ha'] at hok; cases hok; rfl
  exact validateFormAux_keys_subset V R res.errors ha f m hm

/-- C9 witness: two bags agreeing on the one field named by `c9R` (but
nowhere else) validate identically. -/
theorem c9_witness : Utils.validateForm c9V1 c9R = Utils.validateForm c9V2 c9R :=
  c9_validateForm_noninterference.1 c9V1 c9V2 c9R (fun f hf => by
    simp [c9R] at hf
    subst hf
    rfl)

/-- C10: in the object branch of src/utils.js `validateForm`, only
`Object.values(params)[0]` — the first remaining property value in
key-insertion order — reaches the registry validator: a single rule's
outcome depends only on that head value, and truncating every object
rule's parameter list to its first entry leaves the whole form result
unchanged. -/
theorem c10_object_rule_first_param :
    (∀ (field : String) (value : Option String) (v m : Option String)
       (ps ps' : List Nat), ps.head? = ps'.head? →
      Utils.evalRule field value (Utils.Rule.obj v m ps) =
        Utils.evalRule field value (Utils.Rule.obj v m ps')) ∧
    (∀ (V : String → Option String) (R : List (String × List Utils.Rule)),
      Utils.validateForm V (R.map (fun fr => (fr.1, fr.2.map truncParams))) =
        Utils.validateForm V R) := by
  constructor
  · intro field value v m ps ps' h
    simp only [Utils.evalRule, h]
  · intro V R
    simp only [Utils.validateForm, validateFormAux_truncParams]

/-- C10 witness: a second parameter property (`99`) does not change the
outcome of a `minLength` object rule. -/
theorem c10_witness :
    Utils.evalRule "f" (some "ab") (Utils.Rule.obj (some "minLength") none [3, 99]) =
      Utils.evalRule "f" (some "ab") (Utils.Rule.obj (some "minLength") none [3]) :=
  c10_object_rule_first_param.1 "f" (some "ab") (some "minLength") none [3, 99] [3] rfl

/-- C2 counterexample: in src/utils.js, a directly-supplied predicate rule
whose result is truthy (i.e. a failing rule of shape (b)) records nothing —
`validateForm` reports the form valid with an empty errors mapping, so the
claim that both rule shapes take effect in every `validateForm` is false. -/
theorem c2_counterexample :
    Utils.validateForm c2V [("a", [Utils.Rule.fn c2fnRule])] = .ok ⟨true, []⟩ ∧
    JsUtils.truthyMsg (c2fnRule (c2V "a")) = true :=
  ⟨rfl, rfl⟩

/-- C2 (amended): each file supports one rule-shape family.  In src/utils.js
a failing bare-string rule records its generated message and a failing
object rule records its custom (or default) message, while function-shaped
rules are skipped wholesale (dropping them never changes the result); in
src/js/utils.js only directly-supplied predicate rules are evaluated, and a
failing one records the message it returned. -/
theorem c2_amended_rule_shapes :
    (∀ (V : String → Option String) (f n : String),
      Utils.callTruthy n (V f) = .ok false →
      Utils.validateForm V [(f, [Utils.Rule.name n])] =
        .ok ⟨false, [(f, f ++ " is " ++ n)]⟩) ∧
    (∀ (V : String → Option String) (f vn : String) (msg : Option String) (ps : List Nat),
      Utils.callCurried vn ps.head? (V f) = .ok false →
      Utils.validateForm V [(f, [Utils.Rule.obj (some vn) msg ps])] =
        .ok ⟨false, [(f, Utils.objMessage msg f)]⟩) ∧
    (∀ (V : String → Option String) (R : List (String × List Utils.Rule)),
      Utils.validateForm V (R.map (fun fr => (fr.1, dropFnRules fr.2))) =
        Utils.validateForm V R) ∧
    (∀ (V : String → Option String) (f : String) (r : JsUtils.JsRule) (m : String),
      r (V f) = some m → m ≠ "" →
      JsUtils.validateForm V [(f, [r])] = [(f, m)]) := by
  refine ⟨?_, ?_, ?_, ?_⟩
  · intro V f n h
    simp [Utils.validateForm, Utils.validateFormAux, Utils.runRules, Utils.evalRule, h]
  · intro V f vn msg ps h
    simp [Utils.validateForm, Utils.validateFormAux, Utils.runRules, Utils.evalRule, h]
  · intro V R
    simp only [Utils.validateForm, validateFormAux_dropFn]
  · intro V f r m h hm
    simp [JsUtils.validateForm, JsUtils.runRules, JsUtils.truthyMsg, h, hm]

/-- C2 witness: the amended statement applied to a failing `required`
bare-string rule on the empty-string bag. -/
theorem c2_witness :
    Utils.validateForm c2V [("a", [Utils.Rule.name "required"])] =
      .ok ⟨false, [("a", "a is required")]⟩ :=
  c2_amended_rule_shapes.1 c2V "a" "required" rfl

/-- C3 counterexample: when the caller supplies a headers bag (here just
`Authorization`), the trailing `...options` spread replaces the merged
header object wholesale, so the built config has no `Content-Type` at all —
while the claimed merge (caller wins on conflict, default retained
otherwise) would keep `Content-Type: application/json`. -/
theorem c3_counterexample :
    (Utils.mkConfig ⟨none, some c3AuthHeaders, none⟩).headersMap "Content-Type" = none ∧
    claimMergedHeaders c3AuthHeaders "Content-Type" = some "application/json" :=
  ⟨rfl, rfl⟩

/-- C3 (amended): every request goes to `baseURL ++ path`; the built header
map is the default `Content-Type: application/json` object exactly when the
caller passed no `headers` property (as all of get/post/put/delete do), and
is the caller's headers object verbatim — default Content-Type dropped —
when the caller passed one. -/
theorem c3_amended_request_url_headers :
    (∀ (b e : String) (o : Utils.Options),
      Utils.request (fun u _ => .error u) b e o = (.error (b ++ e), 1)) ∧
    (∀ o : Utils.Options, o.headers = none →
      (Utils.mkConfig o).headersMap = defaultHeaders) ∧
    (∀ (o : Utils.Options) (h : HeaderMap), o.headers = some h →
      (Utils.mkConfig o).headersMap = h) ∧
    (∀ (b e : String) (o : JsUtils.Options),
      JsUtils.request (fun u _ => .error u) b e o = (.error (b ++ e), 1)) ∧
    (∀ o : JsUtils.Options, o.headers = none →
      (JsUtils.mkConfig o).headersMap = defaultHeaders) ∧
    (∀ (o : JsUtils.Options) (h : HeaderMap), o.headers = some h →
      (JsUtils.mkConfig o).headersMap = h) := by
  refine ⟨fun b e o => rfl, ?_, ?_, fun b e o => rfl, ?_, ?_⟩
  · intro o ho
    funext k
    simp [Utils.mkConfig, Utils.mkConfigHeaders, ho, mergeHeaders]
  · intro o h ho
    simp [Utils.mkConfig, Utils.mkConfigHeaders, ho]
  · intro o ho
    funext k
    simp [JsUtils.mkConfig, JsUtils.mkConfigHeaders, ho, mergeHeaders]
  · intro o h ho
    simp [JsUtils.mkConfig, JsUtils.mkConfigHeaders, ho]

/-- C3 witness: a GET-style options bag with no headers property yields
exactly the default header object. -/
theorem c3_witness :
    (Utils.mkConfig ⟨some "GET", none, none⟩).headersMap = defaultHeaders :=
  c3_amended_request_url_headers.2.1 ⟨some "GET", none, none⟩ rfl

/-- C4: a response whose success flag is false makes `request` (and the
four verb wrappers, shown for `get` and `post`) fail with the error
`HTTP error! status: s` carrying the numeric status, logging exactly one
diagnostic line; a transport-level rejection is logged once and re-raised
unchanged; a success response resolves to its decoded JSON body — in
particular status 404 on `get "/x"` fails carrying 404 with one log line,
and status 200 with body `{"a":1}` resolves to that object.  Stated for
both `ApiClient` and `APIClient`. -/
theorem c4_transport_status_handling :
    (∀ (resp : Response) (b e : String) (o : Utils.Options), resp.ok = false →
      Utils.request (fun _ _ => .ok resp) b e o =
        (.error ("HTTP error! status: " ++ toString resp.status), 1)) ∧
    (∀ (resp : Response) (b e : String) (o : Utils.Options), resp.ok = true →
      Utils.request (fun _ _ => .ok resp) b e o = (.ok resp.json, 0)) ∧
    (∀ (err b e : String) (o : Utils.Options),
      Utils.request (fun _ _ => .error err) b e o = (.error err, 1)) ∧
    (∀ (j : Json) (b : String),
      Utils.get (fun _ _ => .ok ⟨false, 404, j⟩) b "/x" =
        (.error "HTTP error! status: 404", 1)) ∧
    (∀ b : String,
      Utils.get (fun _ _ => .ok ⟨true, 200, Json.jobj [("a", Json.jnum 1)]⟩) b "/x" =
        (.ok (Json.jobj [("a", Json.jnum 1)]), 0)) ∧
    (∀ (resp : Response) (b e : String) (d : Utils.Body), resp.ok = false →
      Utils.post (fun _ _ => .ok resp) b e d =
        (.error ("HTTP error! status: " ++ toString resp.status), 1)) ∧
    (∀ (resp : Response) (b e : String) (o : JsUtils.Options), resp.ok = false →
      JsUtils.request (fun _ _ => .ok resp) b e o =
        (.error ("HTTP error! status: " ++ toString resp.status), 1)) ∧
    (∀ (resp : Response) (b e : String) (o : JsUtils.Options), resp.ok = true →
      JsUtils.request (fun _ _ => .ok resp) b e o = (.ok resp.json, 0)) ∧
    (∀ (j : Json) (b : String),
      JsUtils.get (fun _ _ => .ok ⟨false, 404, j⟩) b "/x" =
        (.error "HTTP error! status: 404", 1)) ∧
    (∀ b : String,
      JsUtils.get (fun _ _ => .ok ⟨true, 200, Json.jobj [("a", Json.jnum 1)]⟩) b "/x" =
        (.ok (Json.jobj [("a", Json.jnum 1)]), 0)) := by
  refine ⟨?_, ?_, fun err b e o => rfl, ?_, fun b => rfl, ?_, ?_, ?_,
    ?_, fun b => rfl⟩
  · intro resp b e o h
    simp [Utils.request, h]
  · intro resp b e o h
    simp [Utils.request, h]
  · intro j b
    have h : Utils.get (fun _ _ => .ok ⟨false, 404, j⟩) b "/x" =
        (.error ("HTTP error! status: " ++ toString (404 : Nat)), 1) := rfl
    rw [h]
    rfl
  · intro resp b e d h
    simp [Utils.post, Utils.request, h]
  · intro resp b e o h
    simp [JsUtils.request, h]
  · intro resp b e o h
    simp [JsUtils.request, h]
  · intro j b
    have h : JsUtils.get (fun _ _ => .ok ⟨false, 404, j⟩) b "/x" =
        (.error ("HTTP error! status: " ++ toString (404 : Nat)), 1) := rfl
    rw [h]
    rfl

/-- C4 witness: a concrete failing transport response with status 500. -/
theorem c4_witness :
    Utils.request (fun _ _ => .ok ⟨false, 500, Json.jnull⟩) "http://api" "/y"
        ⟨some "GET", none, none⟩ =
      (.error "HTTP error! status: 500", 1) :=
  c4_transport_status_handling.1 ⟨false, 500, Json.jnull⟩ "http://api" "/y"
    ⟨some "GET", none, none⟩ rfl

/-- C5 counterexample: the claim says the src/utils.js variant strips
whitespace, parentheses and dashes; the code's class `[\s\-$$$$]` strips
whitespace, dashes and literal dollar signs instead.  On
`"(123) 456-7890"` the claimed validator accepts while the code rejects
(parentheses survive), and on `"1$2345"` the code accepts while the
claimed validator rejects (the `$` survives there). -/
theorem c5_counterexample :
    Utils.validators.phone "(123) 456-7890" = false ∧
    claimPhoneUtils "(123) 456-7890" = true ∧
    Utils.validators.phone "1$2345" = true ∧
    claimPhoneUtils "1$2345" = false :=
  ⟨rfl, rfl, rfl, rfl⟩

/-- C5 (amended): the src/js/utils.js phone validator strips whitespace
only, the src/utils.js variant strips whitespace, dashes and dollar signs
(not parentheses); both then accept exactly the strings whose stripped
form is an optional `+`, a non-zero leading digit, and at most 15 further
digits — accepting `+12345678901` and rejecting `0123` and `abc`. -/
theorem c5_amended_phone :
    (∀ s : String, Utils.validators.phone s = true ↔
      PhoneLang (s.toList.filter (fun c => !Utils.phoneStrip c))) ∧
    (∀ s : String, JsUtils.validators.phone s = none ↔
      PhoneLang (s.toList.filter (fun c => !jsWhitespace c))) ∧
    (Utils.validators.phone "+12345678901" = true ∧
     Utils.validators.phone "0123" = false ∧
     Utils.validators.phone "abc" = false ∧
     JsUtils.validators.phone "+12345678901" = none ∧
     JsUtils.validators.phone "0123" = some "Please enter a valid phone number" ∧
     JsUtils.validators.phone "abc" = some "Please enter a valid phone number") := by
  refine ⟨?_, ?_, rfl, rfl, rfl, rfl, rfl, rfl⟩
  · intro s
    exact phoneRegexTest_iff _
  · intro s
    unfold JsUtils.validators.phone
    rw [← phoneRegexTest_iff]
    by_cases h :
        phoneRegexTest (String.mk (s.toList.filter (fun c => !jsWhitespace c))) = true
    · simp [h]
    · simp [h]

/-- C6 counterexample: with the body's pre-show overflow equal to
`"scroll"`, `Modal.show` followed by `Modal.hide` ends with overflow
`"auto"` — the pre-show scroll state is not restored. -/
theorem c6_counterexample :
    ¬ (Utils.Modal.hide "m" (Utils.Modal.show_ "m" c6doc).1).1.bodyOverflow =
        c6doc.bodyOverflow := by
  decide

/-- C6 (amended): when the modal node exists, `show` then `hide` (and the
src/js `openModal`/`closeModal` pair) leaves the node hidden and sets the
body overflow to `"auto"` unconditionally; the pre-show scroll state is
restored exactly when it was already `"auto"`. -/
theorem c6_amended_modal_roundtrip :
    (∀ (d : DomDoc) (i : String) (e : DomElem), getById d i = some e →
      ((Utils.Modal.hide i (Utils.Modal.show_ i d).1).1.bodyOverflow = "auto" ∧
       (∃ e', getById (Utils.Modal.hide i (Utils.Modal.show_ i d).1).1 i = some e' ∧
          "hidden" ∈ e'.classes) ∧
       (d.bodyOverflow = "auto" →
         (Utils.Modal.hide i (Utils.Modal.show_ i d).1).1.bodyOverflow = d.bodyOverflow))) ∧
    (∀ (d : DomDoc) (i : String) (e : DomElem), getById d i = some e →
      ((JsUtils.closeModal i (JsUtils.openModal i d).1).1.bodyOverflow = "auto" ∧
       (∃ e', getById (JsUtils.closeModal i (JsUtils.openModal i d).1).1 i = some e' ∧
          "hidden" ∈ e'.classes) ∧
       (d.bodyOverflow = "auto" →
         (JsUtils.closeModal i (JsUtils.openModal i d).1).1.bodyOverflow =
           d.bodyOverflow))) := by
  have core : ∀ (d : DomDoc) (i : String) (e : DomElem), getById d i = some e →
      ((Utils.Modal.hide i (Utils.Modal.show_ i d).1).1.bodyOverflow = "auto" ∧
       (∃ e', getById (Utils.Modal.hide i (Utils.Modal.show_ i d).1).1 i = some e' ∧
          "hidden" ∈ e'.classes) ∧
       (d.bodyOverflow = "auto" →
         (Utils.Modal.hide i (Utils.Modal.show_ i d).1).1.bodyOverflow =
           d.bodyOverflow)) := by
    intro d i e h
    have hs : (Utils.Modal.show_ i d).1 =
        { updateById d i (classRemove "hidden") with bodyOverflow := "hidden" } := by
      simp only [Utils.Modal.show_, h]
    have h1 : getById (Utils.Modal.show_ i d).1 i = some (classRemove "hidden" e) := by
      rw [hs]
      have h2 := getById_updateById d i (classRemove "hidden")
        (fun e' => classRemove_idAttr "hidden" e')
      rw [h] at h2
      exact h2
    have hh : (Utils.Modal.hide i (Utils.Modal.show_ i d).1).1 =
        { updateById (Utils.Modal.show_ i d).1 i (classAdd "hidden") with
            bodyOverflow := "auto" } := by
      simp only [Utils.Modal.hide, h1]
    refine ⟨by rw [hh], ?_, fun hpre => by rw [hh, hpre]⟩
    have h3 := getById_updateById (Utils.Modal.show_ i d).1 i (classAdd "hidden")
      (fun e' => classAdd_idAttr "hidden" e')
    rw [h1] at h3
    refine ⟨classAdd "hidden" (classRemove "hidden" e), ?_, mem_classAdd _ _⟩
    rw [hh]
    exact h3
  exact ⟨core, core⟩

/-- C6 witness: the amended round-trip applied to the concrete document
`c6doc` and its modal node `m`. -/
theorem c6_witness :
    (Utils.Modal.hide "m" (Utils.Modal.show_ "m" c6doc).1).1.bodyOverflow = "auto" :=
  (c6_amended_modal_roundtrip.1 c6doc "m" ⟨"div", "m", [], "", false⟩ rfl).1

/-- C7 counterexample: `DOM.show` on an id with no matching node throws
(`null.classList` raises a `TypeError`) instead of completing silently, so
the claim that every listed helper is a silent no-op on a missing node is
false. -/
theorem c7_counterexample : (Utils.DOM.show_ "missing" emptyDoc).2 = true := rfl

/-- C7 (amended): on a missing target node, `Modal.show`/`Modal.hide`,
`Loading.show`/`Loading.hide` and the src/js `openModal`/`closeModal` are
guarded and complete silently with the document unchanged, while
`DOM.show`/`DOM.hide`/`DOM.toggle` throw with the document unchanged.
`toggleSidebar` throws with the document unchanged when `.sidebar` is
missing; when `.sidebar` exists but `.main-content` is missing it throws
only after toggling the sidebar's `open` class, so the document is left
mutated despite the error. -/
theorem c7_amended_missing_node :
    (∀ (d : DomDoc) (i : String), getById d i = none →
      (Utils.DOM.show_ i d = (d, true) ∧
       Utils.DOM.hide i d = (d, true) ∧
       Utils.DOM.toggle i d = (d, true) ∧
       Utils.Modal.show_ i d = (d, false) ∧
       Utils.Modal.hide i d = (d, false) ∧
       Utils.Loading.show_ i d = (d, false) ∧
       (∀ orig : String, Utils.Loading.hide i orig d = (d, false)) ∧
       JsUtils.openModal i d = (d, false) ∧
       JsUtils.closeModal i d = (d, false))) ∧
    (∀ d : DomDoc, queryByClass d "sidebar" = none →
      JsUtils.toggleSidebar d = (d, true)) ∧
    (∀ (d : DomDoc) (e : DomElem), queryByClass d "sidebar" = some e →
      queryByClass d "main-content" = none →
      JsUtils.toggleSidebar d = (updateByClass d "sidebar" (classToggle "open"), true)) := by
  refine ⟨?_, ?_, ?_⟩
  · intro d i h
    refine ⟨?_, ?_, ?_, ?_, ?_, ?_, fun orig => ?_, ?_, ?_⟩ <;>
      simp [Utils.DOM.show_, Utils.DOM.hide, Utils.DOM.toggle, Utils.Modal.show_,
        Utils.Modal.hide, Utils.Loading.show_, Utils.Loading.hide,
        JsUtils.openModal, JsUtils.closeModal, h]
  · intro d h
    simp [JsUtils.toggleSidebar, h]
  · intro d e h1 h2
    simp [JsUtils.toggleSidebar, h1, h2]

/-- C7 witness: `Modal.show` on the empty document is a silent no-op while
`DOM.show` on the same missing id throws. -/
theorem c7_witness : Utils.Modal.show_ "nope" emptyDoc = (emptyDoc, false) :=
  (c7_amended_missing_node.1 emptyDoc "nope" rfl).2.2.2.1

/-- C8: starting from a document with no `notification-styles` marker, every
prefix of a sequence of `Notification.show` calls leaves at most one marker
element — exactly one once any call has run — and a call against an
already-marked document leaves the marker elements untouched (the
stylesheet injection is skipped). -/
theorem c8_notification_styles_once :
    (∀ d : DomDoc, Utils.Notification.markerCount d = 0 →
      ∀ calls : List (String × String),
        Utils.Notification.markerCount (Utils.Notification.showSeq calls d) ≤ 1 ∧
        (calls ≠ [] →
          Utils.Notification.markerCount (Utils.Notification.showSeq calls d) = 1)) ∧
    (∀ (m t : String) (dur : Nat) (d : DomDoc),
      Utils.Notification.markerCount d ≠ 0 →
      Utils.Notification.markerElems (Utils.Notification.show_ m t dur d) =
        Utils.Notification.markerElems d) := by
  refine ⟨?_, markerElems_show_of_marked⟩
  intro d h0 calls
  cases calls with
  | nil =>
    refine ⟨?_, fun hc => absurd rfl hc⟩
    rw [show Utils.Notification.showSeq [] d = d from rfl, h0]
    omega
  | cons c cs =>
    have h1 : Utils.Notification.markerCount (Utils.Notification.show_ c.1 c.2 3000 d) = 1 := by
      rw [markerCount_show, if_pos h0]
    have h2 := markerCount_showSeq_of_one cs _ h1
    have h3 : Utils.Notification.showSeq (c :: cs) d =
        Utils.Notification.showSeq cs (Utils.Notification.show_ c.1 c.2 3000 d) := rfl
    rw [h3, h2]
    exact ⟨by omega, fun _ => rfl⟩

/-- C8 witness: two consecutive notifications on the empty document leave
exactly one style-marker element. -/
theorem c8_witness :
    Utils.Notification.markerCount
      (Utils.Notification.showSeq [("hi", "success"), ("yo", "error")] emptyDoc) = 1 :=
  (c8_notification_styles_once.1 emptyDoc rfl [("hi", "success"), ("yo", "error")]).2
    (List.cons_ne_nil _ _)
